import Mathlib

/-!
Verification development for the nginx/PHP log-analysis core of
nginx_dashboard.py: line parsers, field derivation, security heuristics
and aggregate anomaly statistics, shallowly embedded over lists of
characters and records.
-/

/-! ### Character classes (ASCII, as used by the Python regexes) -/

/-- Matches the regex class [0-9] (re \d, ASCII range actually used). -/
def isDigitC (c : Char) : Bool := 48 ≤ c.toNat && c.toNat ≤ 57

/-- Whitespace as matched by re \s and stripped by str.strip():
space, tab, newline, carriage return, vertical tab, form feed. -/
def isWsC (c : Char) : Bool :=
  c.toNat = 32 || c.toNat = 9 || c.toNat = 10 || c.toNat = 13 ||
  c.toNat = 11 || c.toNat = 12

/-- Matches [a-fA-F0-9], the hex-digit part of the IP regex. -/
def isHexC (c : Char) : Bool :=
  isDigitC c || (97 ≤ c.toNat && c.toNat ≤ 102) || (65 ≤ c.toNat && c.toNat ≤ 70)

/-- Matches [A-Za-z ], the severity-word class of the PHP error-log regex. -/
def isAlphaSpC (c : Char) : Bool :=
  (65 ≤ c.toNat && c.toNat ≤ 90) || (97 ≤ c.toNat && c.toNat ≤ 122) || c.toNat = 32

/-- Numeric value of a decimal digit character. -/
def digitVal (c : Char) : Nat := c.toNat - 48

/-- Value of a string of decimal digits, most significant first (int()). -/
def natOfDigits (ds : List Char) : Nat := ds.foldl (fun n c => n * 10 + digitVal c) 0

/-! ### Python string helpers -/

/-- Python s.split(sep, 1)[0] / s.split(sep)[0]: the part before the first
occurrence of the separator (the whole string when absent). -/
def beforeFirst (sep : Char) (l : List Char) : List Char := l.takeWhile (fun c => c ≠ sep)

/-- Python s.split(sep)[-1]: the part after the last occurrence of the
separator (the whole string when absent). -/
def afterLast (sep : Char) (l : List Char) : List Char :=
  (l.reverse.takeWhile (fun c => c ≠ sep)).reverse

/-- Python str.strip() with no argument: drop whitespace at both ends. -/
def pyStrip (l : List Char) : List Char :=
  ((l.dropWhile isWsC).reverse.dropWhile isWsC).reverse

/-- Python str.lower() on the ASCII inputs in play (Char.toLower pointwise). -/
def pyLower (l : List Char) : List Char := l.map Char.toLower

/-- Python str.capitalize(): first character upper-cased, the remainder
lower-cased. -/
def pyCapitalize : List Char → List Char
  | [] => []
  | c :: cs => c.toUpper :: cs.map Char.toLower

/-- Boolean substring test (used for the re alternation of plain keywords
and for str.contains of a plain keyword). -/
def substrB (needle : List Char) : List Char → Bool
  | [] => needle.isEmpty
  | c :: rest => needle.isPrefixOf (c :: rest) || substrB needle rest

/-- Python str.split() with no argument: split on whitespace runs, dropping
empty fields.  Fueled so that the kernel can evaluate it. -/
def pySplitWsAux : Nat → List Char → List (List Char)
  | 0, _ => []
  | _ + 1, [] => []
  | fuel + 1, c :: rest =>
    if isWsC c then pySplitWsAux fuel rest
    else
      let w := rest.takeWhile (fun d => !isWsC d)
      (c :: w) :: pySplitWsAux fuel (rest.drop w.length)

def pySplitWs (l : List Char) : List (List Char) := pySplitWsAux l.length l

/-- Python s.split(sep) for a single-character separator, as a list of
fields (used for the dotted-quad check of the IP regex). -/
def splitOnC (sep : Char) (l : List Char) : List (List Char) :=
  l.foldr
    (fun ch acc =>
      if ch = sep then [] :: acc
      else
        match acc with
        | h :: t => (ch :: h) :: t
        | [] => [[ch]])
    [[]]

/-! ### Field extraction regex scans of parse_nginx_log

re.findall(r'"([^"]*)"', line): all non-overlapping double-quoted fields.
re.findall(r'\[([^\]]+)\]', line): all non-empty bracketed fields.
Both are fueled (each step consumes at least one character, and the fuel
starts at the length of the line) so the kernel can evaluate them. -/

def findQuotedAux : Nat → List Char → List (List Char)
  | 0, _ => []
  | _ + 1, [] => []
  | fuel + 1, c :: rest =>
    if c = '"' then
      let run := rest.takeWhile (fun d => d ≠ '"')
      if (rest.drop run.length).head? = some '"' then
        run :: findQuotedAux fuel (rest.drop (run.length + 1))
      else
        -- no closing quote anywhere to the right: no further match
        findQuotedAux fuel rest
    else findQuotedAux fuel rest

def findQuoted (l : List Char) : List (List Char) := findQuotedAux l.length l

def findBracketedAux : Nat → List Char → List (List Char)
  | 0, _ => []
  | _ + 1, [] => []
  | fuel + 1, c :: rest =>
    if c = '[' then
      let run := rest.takeWhile (fun d => d ≠ ']')
      if run.length ≠ 0 ∧ (rest.drop run.length).head? = some ']' then
        run :: findBracketedAux fuel (rest.drop (run.length + 1))
      else
        -- [^\]]+ needs a nonempty run followed by ']'; on failure the scan
        -- resumes one character after the '['
        findBracketedAux fuel rest
    else findBracketedAux fuel rest

def findBracketed (l : List Char) : List (List Char) := findBracketedAux l.length l

/-- The attempt of re.search(r'"\s*(\d{3})\s+(\d+)\s', line) at one
position, given the characters following a '"'.  The quantifiers are
deterministic here: \s* cannot trade characters with \d{3}, \s+ and \d+
cannot trade with their successors. -/
def statusAfterQuote (r : List Char) : Option (Nat × Nat) :=
  let r1 := r.dropWhile isWsC
  match r1 with
  | a :: b :: c :: rest2 =>
    if isDigitC a && isDigitC b && isDigitC c then
      let w := rest2.takeWhile isWsC
      if w.length = 0 then none
      else
        let r2 := rest2.drop w.length
        let ds := r2.takeWhile isDigitC
        if ds.length = 0 then none
        else
          match r2.drop ds.length with
          | x :: _ =>
            if isWsC x then
              some (100 * digitVal a + 10 * digitVal b + digitVal c, natOfDigits ds)
            else none
          | [] => none
    else none
  | _ => none

/-- Leftmost match of the status/size scan over the whole line. -/
def findStatusSize : List Char → Option (Nat × Nat)
  | [] => none
  | c :: rest =>
    if c = '"' then
      match statusAfterQuote rest with
      | some v => some v
      | none => findStatusSize rest
    else findStatusSize rest

/-- The attempt of re.search(r'" ([\d\.]+) "', line) at one position,
given the characters following a '"'. -/
def reqTimeAfterQuote (r : List Char) : Option (List Char) :=
  match r with
  | ' ' :: r2 =>
    let run := r2.takeWhile (fun d => isDigitC d || d = '.')
    if run.length ≠ 0 ∧ (r2.drop run.length).take 2 = [' ', '"'] then some run
    else none
  | _ => none

/-- Leftmost match of the request-time scan over the whole line. -/
def findReqTime : List Char → Option (List Char)
  | [] => none
  | c :: rest =>
    if c = '"' then
      match reqTimeAfterQuote rest with
      | some v => some v
      | none => findReqTime rest
    else findReqTime rest

/-! ### datetime.strptime(time_str, '%d/%b/%Y:%H:%M:%S %z')

A match must consume the whole string.  The per-directive regexes follow
CPython _strptime (in particular %d admits a 1- or 2-digit day with an
optional leading space, %Y is exactly 4 digits, %z is ±HH[:]MM with an
optional seconds and fraction part or a literal Z), and the datetime
constructor then validates the calendar day, the seconds (leap seconds 60
and 61 pass the regex but fail construction) and requires the UTC offset
to be strictly less than 24 hours in magnitude. -/

def monthAbbrevs : List (List Char) :=
  [['j','a','n'], ['f','e','b'], ['m','a','r'], ['a','p','r'], ['m','a','y'],
   ['j','u','n'], ['j','u','l'], ['a','u','g'], ['s','e','p'], ['o','c','t'],
   ['n','o','v'], ['d','e','c']]

/-- %d: (3[01]|[12]\d|0[1-9]|[1-9]| [1-9]).  Returns (day, rest). -/
def parseDay : List Char → Option (Nat × List Char)
  | a :: b :: rest =>
    if isDigitC a && isDigitC b then
      let v := 10 * digitVal a + digitVal b
      if 1 ≤ v ∧ v ≤ 31 then some (v, rest) else none
    else if isDigitC a && 1 ≤ digitVal a then some (digitVal a, b :: rest)
    else if a = ' ' && isDigitC b && 1 ≤ digitVal b then some (digitVal b, rest)
    else none
  | [a] => if isDigitC a && 1 ≤ digitVal a then some (digitVal a, []) else none
  | [] => none

/-- %b: three-letter month abbreviation, case-insensitively. -/
def parseMonth : List Char → Option (Nat × List Char)
  | a :: b :: c :: rest =>
    match (monthAbbrevs.indexOf? (pyLower [a, b, c])) with
    | some i => some (i + 1, rest)
    | none => none
  | _ => none

/-- %Y: exactly four digits. -/
def parseYear4 : List Char → Option (Nat × List Char)
  | a :: b :: c :: d :: rest =>
    if isDigitC a && isDigitC b && isDigitC c && isDigitC d then
      some (natOfDigits [a, b, c, d], rest)
    else none
  | _ => none

/-- A 1- or 2-digit field with a two-digit upper bound (%H, %M, %S). -/
def parseTwoDigit (hi : Nat) : List Char → Option (Nat × List Char)
  | a :: b :: rest =>
    if isDigitC a && isDigitC b then
      let v := 10 * digitVal a + digitVal b
      if v ≤ hi then some (v, rest) else none
    else if isDigitC a then some (digitVal a, b :: rest)
    else none
  | [a] => if isDigitC a then some (digitVal a, []) else none
  | [] => none

/-- Optional fraction (\.\d{1,6})? of the %z seconds; returns the rest, or
none when a '.' is present but not followed by 1–6 digits. -/
def parseZFrac : List Char → Option (List Char)
  | '.' :: rest =>
    let ds := rest.takeWhile isDigitC
    if 1 ≤ ds.length ∧ ds.length ≤ 6 then some (rest.drop ds.length) else none
  | rest => some rest

/-- %z: Z, or ±HH[:]MM with optional [:]SS and fraction; the whole string
must end here.  Returns the absolute offset in seconds. -/
def parseZ : List Char → Option Nat
  | ['Z'] => some 0
  | s :: h1 :: h2 :: rest =>
    if (s = '+' || s = '-') && isDigitC h1 && isDigitC h2 then
      let hh := 10 * digitVal h1 + digitVal h2
      let rest1 := if rest.head? = some ':' then rest.drop 1 else rest
      match rest1 with
      | m1 :: m2 :: rest2 =>
        if isDigitC m1 && digitVal m1 ≤ 5 && isDigitC m2 then
          let mm := 10 * digitVal m1 + digitVal m2
          match rest2 with
          | [] => some (3600 * hh + 60 * mm)
          | _ =>
            let rest3 := if rest2.head? = some ':' then rest2.drop 1 else rest2
            match rest3 with
            | s1 :: s2 :: rest4 =>
              if isDigitC s1 && digitVal s1 ≤ 5 && isDigitC s2 then
                match parseZFrac rest4 with
                | some [] => some (3600 * hh + 60 * mm + 10 * digitVal s1 + digitVal s2)
                | _ => none
              else none
            | _ => none
        else none
      | _ => none
    else none
  | _ => none

def isLeapYear (y : Nat) : Bool := y % 4 = 0 && (y % 100 ≠ 0 || y % 400 = 0)

def daysInMonth (y m : Nat) : Nat :=
  if m = 2 then (if isLeapYear y then 29 else 28)
  else if m = 4 ∨ m = 6 ∨ m = 9 ∨ m = 11 then 30
  else 31

/-- Whether strptime with the nginx layout accepts the whole string. -/
def strptimeNginxOk (l : List Char) : Bool :=
  match parseDay l with
  | none => false
  | some (d, r1) =>
    match r1 with
    | '/' :: r2 =>
      match parseMonth r2 with
      | none => false
      | some (m, r3) =>
        match r3 with
        | '/' :: r4 =>
          match parseYear4 r4 with
          | none => false
          | some (y, r5) =>
            match r5 with
            | ':' :: r6 =>
              match parseTwoDigit 23 r6 with
              | none => false
              | some (_, r7) =>
                match r7 with
                | ':' :: r8 =>
                  match parseTwoDigit 59 r8 with
                  | none => false
                  | some (_, r9) =>
                    match r9 with
                    | ':' :: r10 =>
                      match parseTwoDigit 61 r10 with
                      | none => false
                      | some (sec, r11) =>
                        match r11 with
                        | ' ' :: r12 =>
                          match parseZ r12 with
                          | none => false
                          | some off =>
                            decide (1 ≤ y) && decide (y ≤ 9999) &&
                            decide (d ≤ daysInMonth y m) && decide (sec ≤ 59) &&
                            decide (off < 86400)
                        | _ => false
                    | _ => false
                | _ => false
            | _ => false
        | _ => false
    | _ => false

/-! ### Client-IP validation and derivation (parse_nginx_log)

ip_regex = ^\d{1,3}(\.\d{1,3}){3}$|^[a-fA-F0-9:]+$ , applied with
re.match to the trimmed first comma-separated token of the proxy chain. -/

/-- Full match of ^\d{1,3}(\.\d{1,3}){3}$: four dot-separated groups of
one to three digits. -/
def isIPv4B (s : String) : Bool :=
  let parts := splitOnC '.' s.toList
  parts.length = 4 &&
    parts.all (fun p => 1 ≤ p.length && p.length ≤ 3 && p.all isDigitC)

/-- Full match of ^[a-fA-F0-9:]+$: a nonempty string of hex digits and
colons (the "IPv6" branch). -/
def isIPv6B (s : String) : Bool :=
  !s.toList.isEmpty && s.toList.all (fun c => isHexC c || c = ':')

def ipRegexB (s : String) : Bool := isIPv4B s || isIPv6B s

/-- real_ip = proxy_chain.split(',')[0].strip() if proxy_chain else '-';
ip = real_ip if ip_regex.match(real_ip) else '-'. -/
def deriveIp (proxyChain : String) : String :=
  let realIp : String :=
    if proxyChain = "" then "-"
    else String.mk (pyStrip (beforeFirst ',' proxyChain.toList))
  if ipRegexB realIp then realIp else "-"

/-! ### The access record and parse_nginx_log -/

/-- One row of the access-log DataFrame.  Cells that the program can leave
null (or that a DataFrame can hold as NaN) are Options; the derived
columns server, extension, is_bot and the two detector flag columns are
attached after parsing and start out at their defaults. -/
structure AccessRecord where
  ip : String
  time : Option String
  method : String
  path : Option String
  protocol : String
  status : Option Nat
  size : Option Nat
  referrer : Option String
  user_agent : String
  req_time : Option String
  proxy_chain : String
  server : String
  extension : String
  is_bot : Bool
  potential_sql_injection : Option Bool
  potential_xss : Option Bool
deriving DecidableEq, Repr

/-- The per-line body of parse_nginx_log: skip (none) when the line has
fewer than 4 quoted fields or no bracketed field, otherwise emit exactly
one record. -/
def parseLine (line : String) : Option AccessRecord :=
  let cs := line.toList
  let quoted := findQuoted cs
  let bracketed := findBracketed cs
  if quoted.length < 4 ∨ bracketed.length < 1 then none
  else
    let timeStr := bracketed.getD 0 []
    let request := quoted.getD 0 []
    let referrer := quoted.getD 1 []
    let userAgent := quoted.getD 2 []
    let proxyChain := quoted.getD 3 []
    let statusSize := findStatusSize cs
    let reqTime := findReqTime cs
    let reqParts := pySplitWs request
    let method := if reqParts.length = 3 then reqParts.getD 0 [] else []
    let path := if reqParts.length = 3 then reqParts.getD 1 [] else []
    let protocol := if reqParts.length = 3 then reqParts.getD 2 [] else []
    some
      { ip := deriveIp (String.mk proxyChain)
        time := if strptimeNginxOk timeStr then some (String.mk timeStr) else none
        method := String.mk method
        path := some (String.mk path)
        protocol := String.mk protocol
        status := statusSize.map (fun p => p.1)
        size := statusSize.map (fun p => p.2)
        referrer := some (String.mk referrer)
        user_agent := String.mk userAgent
        req_time := reqTime.map String.mk
        proxy_chain := String.mk proxyChain
        server := ""
        extension := ""
        is_bot := false
        potential_sql_injection := none
        potential_xss := none }

/-- parse_nginx_log over a batch of lines: skipped lines never abort the
batch. -/
def parseNginxLog (lines : List String) : List AccessRecord :=
  lines.filterMap parseLine

/-! ### parse_php_error_log

pattern = re.compile(r'\[(.*?)\]\s+PHP\s+([A-Za-z ]+):\s*(.*)') applied
with pattern.match (anchored at the start of the line).  The non-greedy
group backtracks: when the part after a ']' fails to match, the group
extends to the next ']'.  Inside the severity part the only genuine
backtracking is between the second \s+ and the [A-Za-z ]+ group, which
matters only when the group would otherwise be empty: the group then
takes the final space of the whitespace run. -/

/-- The \s+PHP\s+([A-Za-z ]+):\s*(.*) part, applied after a ']'.  Returns
the raw severity group and the message. -/
def phpSevPart (r : List Char) : Option (List Char × List Char) :=
  let w1 := r.takeWhile isWsC
  if w1.length = 0 then none
  else
    match r.drop w1.length with
    | 'P' :: 'H' :: 'P' :: r2 =>
      let w2 := r2.takeWhile isWsC
      if w2.length = 0 then none
      else
        let r3 := r2.drop w2.length
        let g := r3.takeWhile isAlphaSpC
        if g.length ≠ 0 then
          match r3.drop g.length with
          | ':' :: rest => some (g, rest.dropWhile isWsC)
          | _ => none
        else
          match r3 with
          | ':' :: rest =>
            if 2 ≤ w2.length ∧ w2.getLast? = some ' ' then
              some ([' '], rest.dropWhile isWsC)
            else none
          | _ => none
    | _ => none

/-- Scan for the ']' closing the non-greedy bracketed group; acc holds the
group contents read so far, reversed. -/
def phpAfterBracket : List Char → List Char → Option (List Char × List Char × List Char)
  | _, [] => none
  | acc, c :: rest =>
    if c = ']' then
      match phpSevPart rest with
      | some (ty, msg) => some (acc.reverse, ty, msg)
      | none => phpAfterBracket (c :: acc) rest
    else phpAfterBracket (c :: acc) rest

/-- pattern.match(line): the three captured groups, or none. -/
def phpMatch (line : String) : Option (String × String × String) :=
  match line.toList with
  | '[' :: rest =>
    (phpAfterBracket [] rest).map
      (fun g => (String.mk g.1, String.mk g.2.1, String.mk g.2.2))
  | _ => none

/-- The severity normalization of parse_php_error_log: strip and lower the
matched group, map the three known severities, capitalize the rest. -/
def normLabel (ty : String) : String :=
  let s := String.mk (pyLower (pyStrip ty.toList))
  if s = "fatal error" then "Fatal Error (Critical)"
  else if s = "warning" then "Warning"
  else if s = "notice" then "Info"
  else String.mk (pyCapitalize (pyLower (pyStrip ty.toList)))

/-- One row of the PHP error-log DataFrame (server is attached later by
the caller). -/
structure PhpErrorRecord where
  time : String
  type : String
  message : String
deriving DecidableEq, Repr

/-- The per-line body of parse_php_error_log. -/
def parsePhpLine (line : String) : Option PhpErrorRecord :=
  (phpMatch line).map (fun g => { time := g.1, type := normLabel g.2.1, message := g.2.2 })

def parsePhpErrorLog (lines : List String) : List PhpErrorRecord :=
  lines.filterMap parsePhpLine

/-! ### get_extension (field derivation) -/

/-- get_extension: empty for non-string input (none); strip the query
string; if the final slash-segment contains a '.', return the lower-cased
part of the whole remaining path after its last '.', else empty. -/
def getExtension : Option String → String
  | none => ""
  | some s =>
    let p := beforeFirst '?' s.toList
    if (afterLast '/' p).contains '.' then String.mk (pyLower (afterLast '.' p))
    else ""

/-- The extension function as the specification words it: the lower-cased
substring after the last '.' of the final slash-segment itself. -/
def extensionSpec : Option String → String
  | none => ""
  | some s =>
    let p := beforeFirst '?' s.toList
    let seg := afterLast '/' p
    if seg.contains '.' then String.mk (pyLower (afterLast '.' seg))
    else ""

/-! ### Security heuristics (detect_brute_force / detect_sql_injection /
detect_xss)

str.contains of a '|'-join of plain keywords with case=False is a
case-insensitive substring test against any of the keywords; na=False
turns a null cell into a non-match.  detect_brute_force omits na=False,
but the pandas logical `&` of an object mask with NaN fills the NaN
result cells with False before the boolean indexing, so a null path is a
non-match there as well. -/

/-- Case-insensitive substring test, str.contains(k, case=False). -/
def containsCI (needle hay : String) : Bool :=
  substrB (pyLower needle.toList) (pyLower hay.toList)

def containsAnyCI (keys : List String) (hay : String) : Bool :=
  keys.any (fun k => containsCI k hay)

def sqlKeywords : List String :=
  ["SELECT", "UNION", "DROP", "INSERT", "UPDATE", "DELETE", "WHERE", "OR", "AND"]

def xssPatterns : List String := ["<script>", "javascript:", "onerror=", "onload="]

/-- Null-tolerant column test with na=False semantics. -/
def optContainsAny (keys : List String) : Option String → Bool
  | some s => containsAnyCI keys s
  | none => false

/-- The row mask of detect_brute_force: path contains "login"
case-insensitively (null path → False after the NA fill of `&`) and
status ∈ {401, 403} (isin is False on NaN). -/
def bruteMatch (r : AccessRecord) : Bool :=
  (match r.path with
   | some p => containsCI "login" p
   | none => false) &&
  (r.status == some 401 || r.status == some 403)

/-- groupby(cols).size(): one entry per distinct key with the number of
its occurrences. -/
def groupCounts {α : Type} [DecidableEq α] (ks : List α) : List (α × Nat) :=
  ks.dedup.map (fun k => (k, ks.countP (fun x => decide (x = k))))

/-- detect_brute_force: filter, group by (ip, path), keep count > 5. -/
def detectBruteForce (df : List AccessRecord) : List ((String × String) × Nat) :=
  let flt := df.filter bruteMatch
  let keys := flt.map (fun r => (r.ip, r.path.getD ""))
  (groupCounts keys).filter (fun g => decide (5 < g.2))

/-- The row mask of detect_sql_injection (na=False on both columns). -/
def sqlMask (r : AccessRecord) : Bool :=
  optContainsAny sqlKeywords r.path || optContainsAny sqlKeywords r.referrer

/-- detect_sql_injection assigns the flag column on the input frame and
returns (the mutated frame, the flagged rows). -/
def detectSqlInjection (df : List AccessRecord) :
    List AccessRecord × List AccessRecord :=
  let upd := df.map (fun r => { r with potential_sql_injection := some (sqlMask r) })
  (upd, upd.filter (fun r => r.potential_sql_injection == some true))

/-- The row mask of detect_xss (na=False on both columns). -/
def xssMask (r : AccessRecord) : Bool :=
  optContainsAny xssPatterns r.path || optContainsAny xssPatterns r.referrer

/-- detect_xss assigns the flag column on the input frame and returns
(the mutated frame, the flagged rows). -/
def detectXss (df : List AccessRecord) :
    List AccessRecord × List AccessRecord :=
  let upd := df.map (fun r => { r with potential_xss := some (xssMask r) })
  (upd, upd.filter (fun r => r.potential_xss == some true))

/-! ### High-error-IP aggregate statistics (tab4)

df.groupby('ip').agg(total_requests=('status','count'),
error_requests=('status', lambda x: (x >= 400).sum())): the 'count'
aggregation counts the non-null statuses of the group, and NaN >= 400 is
False, so both columns range over rows whose status parsed. -/

/-- Whether a status cell counts as an error row ((x >= 400) with NaN
comparing False). -/
def statusErrB : Option Nat → Bool
  | some s => decide (400 ≤ s)
  | none => false

/-- total_requests of one IP: rows of that IP with a non-null status. -/
def totalPresent (df : List AccessRecord) (ip : String) : Nat :=
  df.countP (fun r => r.ip == ip && r.status.isSome)

/-- error_requests of one IP: rows of that IP with status ≥ 400. -/
def errCount (df : List AccessRecord) (ip : String) : Nat :=
  df.countP (fun r => r.ip == ip && statusErrB r.status)

structure IpStat where
  ip : String
  total_requests : Nat
  error_requests : Nat
  error_rate : ℚ
deriving DecidableEq, Repr

def mkStat (df : List AccessRecord) (ip : String) : IpStat :=
  { ip := ip
    total_requests := totalPresent df ip
    error_requests := errCount df ip
    error_rate := (errCount df ip : ℚ) / (totalPresent df ip : ℚ) }

/-- The per-IP aggregation table (one row per distinct ip). -/
def ipStats (df : List AccessRecord) : List IpStat :=
  ((df.map (fun r => r.ip)).dedup).map (mkStat df)

/-- The filter error_rate > 0.5 and total_requests > 10.  An IP whose
statuses are all null has rate 0/0, which is excluded both here and in
the float semantics (NaN > 0.5 is False). -/
def statQual (s : IpStat) : Bool :=
  decide ((1 : ℚ) / 2 < s.error_rate) && decide (10 < s.total_requests)

/-- Descending order on error_rate used by sort_values(ascending=False). -/
def rateGE (a b : IpStat) : Prop := b.error_rate ≤ a.error_rate

instance : DecidableRel rateGE :=
  fun a b => inferInstanceAs (Decidable (b.error_rate ≤ a.error_rate))

instance : IsTotal IpStat rateGE := ⟨fun a b => le_total b.error_rate a.error_rate⟩

instance : IsTrans IpStat rateGE := ⟨fun _ _ _ h1 h2 => le_trans h2 h1⟩

/-- The high-error-IP report: filter, sort descending by rate, head(10). -/
def highErrorIPs (df : List AccessRecord) : List IpStat :=
  (((ipStats df).filter statQual).insertionSort rateGE).take 10

/-! ### Concrete inputs used by the counterexamples and witnesses -/

/-- A row with the given ip, status, path and referrer and defaults
elsewhere (the shape of rows fed to the detectors in tests). -/
def mkRow (ip : String) (st : Option Nat) (p rf : Option String) : AccessRecord :=
  { ip := ip, time := none, method := "", path := p, protocol := "", status := st,
    size := none, referrer := rf, user_agent := "", req_time := none,
    proxy_chain := "", server := "", extension := "", is_bot := false,
    potential_sql_injection := none, potential_xss := none }

/-- An access line whose status token is 999. -/
def c3line : String :=
  "\"GET / HTTP/1.1\" 999 1234 [10/Oct/2000:13:55:36 -0700] \"-\" \"UA\" \"1.2.3.4\""

/-- The record parse_nginx_log emits for c3line. -/
def c3rec : AccessRecord :=
  { ip := "1.2.3.4", time := some "10/Oct/2000:13:55:36 -0700", method := "GET",
    path := some "/", protocol := "HTTP/1.1", status := some 999, size := some 1234,
    referrer := some "-", user_agent := "UA", req_time := none,
    proxy_chain := "1.2.3.4", server := "", extension := "", is_bot := false,
    potential_sql_injection := none, potential_xss := none }

/-- An access line with a well-formed proxy chain. -/
def c7line : String :=
  "\"GET /a HTTP/1.1\" 200 5 [10/Oct/2000:13:55:36 -0700] \"-\" \"UA\" \"203.0.113.5, 10.0.0.1\""

/-- The record parse_nginx_log emits for c7line. -/
def c7rec : AccessRecord :=
  { ip := "203.0.113.5", time := some "10/Oct/2000:13:55:36 -0700", method := "GET",
    path := some "/a", protocol := "HTTP/1.1", status := some 200, size := some 5,
    referrer := some "-", user_agent := "UA", req_time := none,
    proxy_chain := "203.0.113.5, 10.0.0.1", server := "", extension := "",
    is_bot := false, potential_sql_injection := none, potential_xss := none }

/-- One IP with 12 null-status rows and 12 rows of status 500: over all 24
rows the error rate is exactly 1/2, but over the rows with a parsed
status it is 1. -/
def c2dfA : List AccessRecord :=
  List.replicate 12 (mkRow "1.2.3.4" none (some "/") none) ++
  List.replicate 12 (mkRow "1.2.3.4" (some 500) (some "/") none)

/-- One IP with 12 rows of status 500 (a qualifying IP). -/
def c2dfW : List AccessRecord :=
  List.replicate 12 (mkRow "7.7.7.7" (some 500) (some "/") none)

/-- Six 401 requests to /wp-login.php from 9.9.9.9 and four from
8.8.8.8 (the brute-force boundary example). -/
def c6df : List AccessRecord :=
  List.replicate 6 (mkRow "9.9.9.9" (some 401) (some "/wp-login.php") none) ++
  List.replicate 4 (mkRow "8.8.8.8" (some 401) (some "/wp-login.php") none)

/-- A row that the SQL-injection mask flags. -/
def c4row : AccessRecord := mkRow "-" none (some "/?q=SELECT") none

/-- A row with every optional field absent. -/
def c8row : AccessRecord := mkRow "-" none none none

/-- A PHP error line with a multi-word severity outside the three mapped
ones. -/
def c5line : String := "[12-Jan-2024 00:00:00 UTC] PHP Parse error: boom"

/-- The PHP error line of the specification example. -/
def c5lineFatal : String := "[12-Jan-2024 00:00:00 UTC] PHP Fatal error:  boom"

/-- The PHP error line used by the C5 witness. -/
def c5lineW : String := "[t] PHP Core warning: oops"

/-- Erase the two detector flag columns of a record (the fields a record
had before any detector ran). -/
def clearFlags (r : AccessRecord) : AccessRecord :=
  { r with potential_sql_injection := none, potential_xss := none }

/-! ### Shared helper lemmas -/

theorem countP_congrB {α : Type} (l : List α) (p q : α → Bool)
    (h : ∀ a ∈ l, p a = q a) : l.countP p = l.countP q :=
  List.countP_congr (fun a ha => by rw [h a ha])

theorem length_filterMap_countP {α β : Type} (l : List α) (f : α → Option β) :
    (l.filterMap f).length = l.countP (fun a => (f a).isSome) := by
  induction l with
  | nil => rfl
  | cons a t ih =>
    simp only [List.filterMap_cons, List.countP_cons]
    cases h : f a <;> simp [h, ih]

theorem mem_groupCounts {α : Type} [DecidableEq α] (ks : List α) (k : α) (n : Nat) :
    (k, n) ∈ groupCounts ks ↔ (k ∈ ks ∧ n = ks.countP (fun x => decide (x = k))) := by
  simp only [groupCounts, List.mem_map, List.mem_dedup, Prod.mk.injEq]
  constructor
  · rintro ⟨a, ha, rfl, rfl⟩
    exact ⟨ha, rfl⟩
  · rintro ⟨hk, rfl⟩
    exact ⟨k, hk, rfl, rfl⟩

theorem statusAfterQuote_le (r : List Char) (v : Nat × Nat)
    (h : statusAfterQuote r = some v) : v.1 ≤ 999 := by
  simp only [statusAfterQuote] at h
  split at h
  · rename_i a b c rest2 heq
    split at h
    · rename_i hd
      simp only [Bool.and_eq_true] at hd
      split at h
      · exact absurd h (by simp)
      · split at h
        · exact absurd h (by simp)
        · split at h
          · split at h
            · injection h with h'
              subst h'
              have h1 := hd.1.1
              have h2 := hd.1.2
              have h3 := hd.2
              simp only [isDigitC, Bool.and_eq_true, decide_eq_true_eq] at h1 h2 h3
              simp only [digitVal]
              omega
            · exact absurd h (by simp)
          · exact absurd h (by simp)
    · exact absurd h (by simp)
  · exact absurd h (by simp)

theorem findStatusSize_le (l : List Char) (v : Nat × Nat)
    (h : findStatusSize l = some v) : v.1 ≤ 999 := by
  induction l with
  | nil => exact absurd h (by simp [findStatusSize])
  | cons c rest ih =>
    simp only [findStatusSize] at h
    split at h
    · split at h
      · rename_i hsq
        injection h with h'
        subst h'
        exact statusAfterQuote_le rest _ hsq
      · exact ih h
    · exact ih h

/-- C1: a line yields an access record if and only if it has at least 4
double-quoted fields and at least 1 bracketed field; a qualifying line
yields exactly one record (the parser is a per-line Option), and over a
batch the number of records equals the number of qualifying lines, so
skipped lines never abort the batch. -/
theorem c1_record_iff_field_counts :
    (∀ line : String,
      (parseLine line).isSome ↔
        (4 ≤ (findQuoted line.toList).length ∧ 1 ≤ (findBracketed line.toList).length))
  ∧ (∀ lines : List String,
      (parseNginxLog lines).length =
        lines.countP (fun line =>
          decide (4 ≤ (findQuoted line.toList).length) &&
          decide (1 ≤ (findBracketed line.toList).length))) := by
  have hline : ∀ line : String,
      (parseLine line).isSome ↔
        (4 ≤ (findQuoted line.toList).length ∧ 1 ≤ (findBracketed line.toList).length) := by
    intro line
    simp only [parseLine]
    split
    · rename_i hlt
      simp only [Option.isSome_none, Bool.false_eq_true, false_iff]
      omega
    · rename_i hge
      simp only [Option.isSome_some, Bool.true_eq, true_iff]
      omega
  refine ⟨hline, fun lines => ?_⟩
  simp only [parseNginxLog]
  rw [length_filterMap_countP]
  apply countP_congrB
  intro line _
  have hl := hline line
  cases h : (parseLine line).isSome with
  | false =>
    rw [h] at hl
    simp only [Bool.false_eq_true, false_iff, not_and] at hl
    by_cases h4 : 4 ≤ (findQuoted line.toList).length
    · have h1 := hl h4
      rw [decide_eq_true h4, decide_eq_false h1]
      rfl
    · rw [decide_eq_false h4]
      rfl
  | true =>
    rw [h] at hl
    simp only [true_iff] at hl
    rw [decide_eq_true hl.1, decide_eq_true hl.2]
    rfl

/-- C3 counterexample: the status scan accepts any three-digit token, so
the line c3line yields a record whose status is 999, outside the claimed
range [100, 599]. -/
theorem c3_status_range_cex :
    (parseLine c3line).map (fun r => r.status) = some (some 999) ∧
    ¬(100 ≤ 999 ∧ 999 ≤ 599) := by
  exact ⟨by decide, by decide⟩

/-- C3 amended: for every emitted record, status is present exactly when
the quote/3-digit/size scan matches the line, and a present status is a
three-digit integer, i.e. at most 999 (not necessarily in [100, 599]). -/
theorem c3_status_three_digits (line : String) (r : AccessRecord)
    (h : parseLine line = some r) :
    (r.status.isSome = (findStatusSize line.toList).isSome)
  ∧ (∀ n, r.status = some n → n ≤ 999) := by
  simp only [parseLine] at h
  split at h
  · exact absurd h (by simp)
  · injection h with h'
    subst h'
    refine ⟨by simp, fun n hn => ?_⟩
    simp only [Option.map_eq_some'] at hn
    obtain ⟨v, hv, hv1⟩ := hn
    subst hv1
    exact findStatusSize_le _ _ hv

/-- C3 witness: the amended bound applied to the concrete line c3line. -/
theorem c3_status_three_digits_witness :
    parseLine c3line = some c3rec ∧ 999 ≤ 999 :=
  ⟨by decide, (c3_status_three_digits c3line c3rec (by decide)).2 999 (by decide)⟩

theorem takeWhile_ne_nest {α : Type} [DecidableEq α] (d s : α) (l : List α)
    (h : d ∈ l.takeWhile (fun c => c ≠ s)) :
    l.takeWhile (fun c => c ≠ d) = (l.takeWhile (fun c => c ≠ s)).takeWhile (fun c => c ≠ d) := by
  induction l with
  | nil => simp at h
  | cons a t ih =>
    by_cases has : a = s
    · subst has
      simp at h
    · by_cases had : a = d
      · subst had
        simp [List.takeWhile_cons, has]
      · have h' : d ∈ t.takeWhile (fun c => c ≠ s) := by
          simp only [List.takeWhile_cons] at h
          rw [if_pos (by simpa using has)] at h
          rcases List.mem_cons.mp h with h' | h'
          · exact absurd h'.symm had
          · exact h'
        simp only [List.takeWhile_cons]
        rw [if_pos (by simpa using had), if_pos (by simpa using has),
          List.takeWhile_cons, if_pos (by simpa using had), ih h']

/-- C9: get_extension returns empty for non-string or empty input, strips
the query string, and—whenever the final slash-segment contains a dot—
returns the lower-cased text after the last dot, which coincides with the
last dot of that final segment; the concrete examples of the
specification evaluate as claimed. -/
theorem c9_get_extension :
    (∀ p : Option String, getExtension p = extensionSpec p)
  ∧ getExtension (some "/index.php?x=1") = "php"
  ∧ getExtension (some "/") = ""
  ∧ getExtension none = "" := by
  refine ⟨fun p => ?_, by decide, by decide, by decide⟩
  cases p with
  | none => rfl
  | some s =>
    simp only [getExtension, extensionSpec]
    by_cases hd : (afterLast '/' (beforeFirst '?' s.toList)).contains '.' = true
    · rw [if_pos hd, if_pos hd]
      have hmem : '.' ∈ (beforeFirst '?' s.toList).reverse.takeWhile (fun c => c ≠ '/') := by
        have : '.' ∈ afterLast '/' (beforeFirst '?' s.toList) := by
          simpa using hd
        simpa [afterLast] using this
      have key := takeWhile_ne_nest '.' '/' (beforeFirst '?' s.toList).reverse hmem
      simp only [afterLast, List.reverse_reverse]
      rw [key]
    · rw [if_neg hd, if_neg hd]

/-- C5 counterexample: a multi-word severity outside the three mapped ones
is capitalized by str.capitalize, not title-cased: the parsed type of
c5line is "Parse error", which differs from the title-cased
"Parse Error". -/
theorem c5_titlecase_cex :
    parsePhpLine c5line =
      some { time := "12-Jan-2024 00:00:00 UTC", type := "Parse error", message := "boom" }
    ∧ ("Parse error" : String) ≠ "Parse Error" :=
  ⟨by decide, by decide⟩

/-- C5 amended: for every matched error line the record's type is the
normalization of the raw severity group: after strip and lower,
"fatal error" maps to "Fatal Error (Critical)", "warning" to "Warning",
"notice" to "Info", and any other severity is capitalized (first
character upper-cased, remainder lower-cased), not title-cased per word;
the specification's fatal-error example parses as claimed. -/
theorem c5_severity_normalization :
    (∀ (line t ty m : String), phpMatch line = some (t, ty, m) →
        parsePhpLine line = some { time := t, type := normLabel ty, message := m })
  ∧ (∀ ty : String, String.mk (pyLower (pyStrip ty.toList)) = "fatal error" →
        normLabel ty = "Fatal Error (Critical)")
  ∧ (∀ ty : String, String.mk (pyLower (pyStrip ty.toList)) = "warning" →
        normLabel ty = "Warning")
  ∧ (∀ ty : String, String.mk (pyLower (pyStrip ty.toList)) = "notice" →
        normLabel ty = "Info")
  ∧ (∀ ty : String, String.mk (pyLower (pyStrip ty.toList)) ≠ "fatal error" →
        String.mk (pyLower (pyStrip ty.toList)) ≠ "warning" →
        String.mk (pyLower (pyStrip ty.toList)) ≠ "notice" →
        normLabel ty = String.mk (pyCapitalize (pyLower (pyStrip ty.toList))))
  ∧ parsePhpLine c5lineFatal =
      some { time := "12-Jan-2024 00:00:00 UTC", type := "Fatal Error (Critical)",
             message := "boom" } := by
  have normLabel_eq : ∀ ty : String,
      normLabel ty =
        (if String.mk (pyLower (pyStrip ty.toList)) = "fatal error" then
          "Fatal Error (Critical)"
         else if String.mk (pyLower (pyStrip ty.toList)) = "warning" then "Warning"
         else if String.mk (pyLower (pyStrip ty.toList)) = "notice" then "Info"
         else String.mk (pyCapitalize (pyLower (pyStrip ty.toList)))) :=
    fun ty => rfl
  refine ⟨?_, ?_, ?_, ?_, ?_, by decide⟩
  · intro line t ty m h
    simp [parsePhpLine, h]
  · intro ty h
    rw [normLabel_eq, if_pos h]
  · intro ty h
    rw [normLabel_eq, h, if_neg (by decide), if_pos rfl]
  · intro ty h
    rw [normLabel_eq, h, if_neg (by decide), if_neg (by decide), if_pos rfl]
  · intro ty h1 h2 h3
    rw [normLabel_eq, if_neg h1, if_neg h2, if_neg h3]

/-- C5 witness: the amended normalization applied to the concrete line
c5lineW, whose severity "Core warning" is outside the mapped set. -/
theorem c5_severity_normalization_witness :
    phpMatch c5lineW = some ("t", "Core warning", "oops")
  ∧ parsePhpLine c5lineW = some { time := "t", type := normLabel "Core warning",
                                  message := "oops" }
  ∧ normLabel "Core warning" =
      String.mk (pyCapitalize (pyLower (pyStrip ("Core warning" : String).toList))) :=
  ⟨by decide,
   c5_severity_normalization.1 c5lineW "t" "Core warning" "oops" (by decide),
   c5_severity_normalization.2.2.2.2.1 "Core warning" (by decide) (by decide) (by decide)⟩

/-- C4 counterexample: detect_sql_injection assigns the flag column on the
input frame, so the collection after the call differs from the input:
the record gains a potential_sql_injection value. -/
theorem c4_mutation_cex :
    (detectSqlInjection [c4row]).1 ≠ [c4row] ∧ (detectXss [c4row]).1 ≠ [c4row] :=
  ⟨by decide, by decide⟩

/-- C4 amended: detect_brute_force returns a derived view without touching
the records; detect_sql_injection and detect_xss each write exactly their
own boolean flag column on every input record and leave every other field
unchanged (the collections agree after erasing the flag columns, with the
same length and order). -/
theorem c4_detectors_frame (df : List AccessRecord) :
    (detectSqlInjection df).1.map clearFlags = df.map clearFlags
  ∧ (detectXss df).1.map clearFlags = df.map clearFlags
  ∧ (detectSqlInjection df).1.length = df.length
  ∧ (detectXss df).1.length = df.length
  ∧ (detectSqlInjection df).1.map (fun r => r.potential_xss) =
      df.map (fun r => r.potential_xss)
  ∧ (detectXss df).1.map (fun r => r.potential_sql_injection) =
      df.map (fun r => r.potential_sql_injection) := by
  have hsql : ∀ r : AccessRecord,
      clearFlags { r with potential_sql_injection := some (sqlMask r) } = clearFlags r :=
    fun r => rfl
  have hxss : ∀ r : AccessRecord,
      clearFlags { r with potential_xss := some (xssMask r) } = clearFlags r :=
    fun r => rfl
  refine ⟨?_, ?_, ?_, ?_, ?_, ?_⟩ <;>
    simp [detectSqlInjection, detectXss, List.map_map, Function.comp, hsql, hxss]

/-- C8: every detector treats absent optional fields as non-matches and
raises no error for them: a null path or null status makes the
brute-force row mask false (str.contains yields NaN there, and the
pandas logical-and fills the NA result with False before indexing), so
rows with a null path can be dropped up front without changing the
report; null path and referrer make the SQL-injection and XSS masks
false (na=False).  All embedded detectors are total functions. -/
theorem c8_absent_fields_non_match :
    (∀ r : AccessRecord, r.path = none → bruteMatch r = false)
  ∧ (∀ r : AccessRecord, r.status = none → bruteMatch r = false)
  ∧ (∀ r : AccessRecord, r.path = none → r.referrer = none →
        sqlMask r = false ∧ xssMask r = false)
  ∧ (∀ df : List AccessRecord,
        detectBruteForce df = detectBruteForce (df.filter (fun r => r.path.isSome))) := by
  have hb1 : ∀ r : AccessRecord, r.path = none → bruteMatch r = false := by
    intro r h
    simp [bruteMatch, h]
  refine ⟨hb1, ?_, ?_, ?_⟩
  · intro r h
    simp [bruteMatch, h]
  · intro r hp hr
    simp [sqlMask, xssMask, optContainsAny, hp, hr]
  · intro df
    have hf : df.filter bruteMatch =
        (df.filter (fun r => r.path.isSome)).filter bruteMatch := by
      rw [List.filter_filter]
      apply List.filter_congr
      intro r _
      cases hp : r.path with
      | none => simp [hb1 r hp, hp]
      | some q => simp [hp]
    simp [detectBruteForce, hf]

/-- C8 witness: the masks on a concrete record with every optional field
absent. -/
theorem c8_absent_fields_non_match_witness :
    bruteMatch c8row = false ∧ sqlMask c8row = false ∧ xssMask c8row = false :=
  ⟨c8_absent_fields_non_match.1 c8row rfl,
   (c8_absent_fields_non_match.2.2.1 c8row rfl rfl).1,
   (c8_absent_fields_non_match.2.2.1 c8row rfl rfl).2⟩

/-- C6: the brute-force report contains exactly the (ip, path) groups,
with their counts, of the records whose path contains "login"
case-insensitively and whose status is 401 or 403, restricted to counts
strictly greater than 5; on the boundary example, six 401 login requests
from 9.9.9.9 are reported and four from 8.8.8.8 are not. -/
theorem c6_brute_force_exact :
    (∀ (df : List AccessRecord) (ip p : String) (n : Nat),
      ((ip, p), n) ∈ detectBruteForce df ↔
        (5 < n ∧
          n = (df.filter
                (fun r => bruteMatch r && r.ip == ip && r.path == some p)).length))
  ∧ ((("9.9.9.9", "/wp-login.php"), 6) ∈ detectBruteForce c6df)
  ∧ (∀ g ∈ detectBruteForce c6df, g.1.1 ≠ "8.8.8.8") := by
  refine ⟨?_, by decide, by decide⟩
  intro df ip p n
  have hcount :
      ((df.filter bruteMatch).map (fun r => (r.ip, r.path.getD ""))).countP
          (fun x => decide (x = (ip, p))) =
        (df.filter (fun r => bruteMatch r && r.ip == ip && r.path == some p)).length := by
    rw [List.countP_map, List.countP_filter, ← List.countP_eq_length_filter]
    apply countP_congrB
    intro r _
    cases hp : r.path with
    | none => simp [bruteMatch, hp]
    | some q =>
      cases hB : bruteMatch r
      · simp
      · rw [Bool.eq_iff_iff]
        simp [Function.comp, hp, Prod.ext_iff]
  constructor
  · intro hmem
    simp only [detectBruteForce, List.mem_filter, decide_eq_true_eq] at hmem
    obtain ⟨hg, h5⟩ := hmem
    rw [mem_groupCounts] at hg
    exact ⟨h5, hg.2.trans hcount⟩
  · rintro ⟨h5, hn⟩
    simp only [detectBruteForce, List.mem_filter, decide_eq_true_eq]
    refine ⟨(mem_groupCounts _ _ _).mpr ⟨?_, hn.trans hcount.symm⟩, h5⟩
    have hpos : 0 < ((df.filter bruteMatch).map (fun r => (r.ip, r.path.getD ""))).countP
        (fun x => decide (x = (ip, p))) := by
      rw [hcount]
      omega
    rcases List.countP_pos_iff.mp hpos with ⟨a, ha, hd⟩
    rw [decide_eq_true_eq] at hd
    subst hd
    exact ha

theorem parseLine_ip (line : String) (r : AccessRecord)
    (h : parseLine line = some r) : r.ip = deriveIp r.proxy_chain := by
  simp only [parseLine] at h
  split at h
  · exact absurd h (by simp)
  · injection h with h'
    subst h'
    rfl

/-- C7: for every emitted record, ip is the stripped first comma-separated
token of the proxy-chain field whenever that token fully matches the IPv4
branch (four dot-separated 1–3 digit groups) or the IPv6 branch (a
nonempty string of hex digits and colons) of ip_regex, and the sentinel
"-" otherwise — in particular when the proxy-chain field is empty. -/
theorem c7_ip_from_proxy_chain (line : String) (r : AccessRecord)
    (h : parseLine line = some r) :
    r.ip =
      (if r.proxy_chain = "" then "-"
       else
         if ipRegexB (String.mk (pyStrip (beforeFirst ',' r.proxy_chain.toList))) then
           String.mk (pyStrip (beforeFirst ',' r.proxy_chain.toList))
         else "-") := by
  rw [parseLine_ip line r h]
  by_cases hpc : r.proxy_chain = ""
  · rw [if_pos hpc, hpc]
    decide
  · rw [if_neg hpc]
    simp only [deriveIp]
    rw [if_neg hpc]

/-- C7 witness: the proxy chain "203.0.113.5, 10.0.0.1" of the concrete
line c7line yields ip "203.0.113.5". -/
theorem c7_ip_from_proxy_chain_witness :
    parseLine c7line = some c7rec ∧ c7rec.ip = "203.0.113.5" ∧
    c7rec.ip =
      (if c7rec.proxy_chain = "" then "-"
       else
         if ipRegexB (String.mk (pyStrip (beforeFirst ',' c7rec.proxy_chain.toList))) then
           String.mk (pyStrip (beforeFirst ',' c7rec.proxy_chain.toList))
         else "-") :=
  ⟨by decide, by decide, c7_ip_from_proxy_chain c7line c7rec (by decide)⟩

/-- C10: the IPv6 branch of ip_regex accepts any nonempty string of hex
digits and colons, dots and colons not required, so such a first
proxy-chain token (like "deadbeef" or "12345") is kept unchanged as the
derived ip instead of being replaced by the sentinel "-"; and every
emitted record's ip is exactly this derivation applied to its proxy
chain. -/
theorem c10_ipv6_branch_loose :
    (∀ chain tok : String, chain ≠ "" →
        String.mk (pyStrip (beforeFirst ',' chain.toList)) = tok → tok ≠ "" →
        (∀ c ∈ tok.toList, isHexC c = true ∨ c = ':') →
        deriveIp chain = tok)
  ∧ (∀ (line : String) (r : AccessRecord), parseLine line = some r →
        r.ip = deriveIp r.proxy_chain) := by
  constructor
  · intro chain tok hch htok hne hall
    have hnil : tok.toList ≠ [] := by
      intro hcon
      apply hne
      calc tok = String.mk tok.toList := rfl
        _ = String.mk [] := by rw [hcon]
        _ = "" := rfl
    have h6 : isIPv6B tok = true := by
      simp only [isIPv6B, Bool.and_eq_true, Bool.not_eq_true']
      refine ⟨?_, ?_⟩
      · cases hcl : tok.toList with
        | nil => exact absurd hcl hnil
        | cons a t => rfl
      · rw [List.all_eq_true]
        intro c hc
        rcases hall c hc with h | h
        · simp [h]
        · simp [h]
    have hmatch : ipRegexB tok = true := by
      simp [ipRegexB, h6]
    simp only [deriveIp]
    rw [if_neg hch, htok, if_pos hmatch]
  · exact parseLine_ip

/-- C10 witness: the non-IP hex token "deadbeef" passes validation and
becomes the derived ip. -/
theorem c10_ipv6_branch_loose_witness :
    ("deadbeef, 10.0.0.1" : String) ≠ "" ∧
    String.mk (pyStrip (beforeFirst ',' ("deadbeef, 10.0.0.1" : String).toList)) =
      "deadbeef" ∧
    deriveIp "deadbeef, 10.0.0.1" = "deadbeef" :=
  ⟨by decide, by decide,
   c10_ipv6_branch_loose.1 "deadbeef, 10.0.0.1" "deadbeef" (by decide) (by decide)
     (by decide) (by decide)⟩

theorem highErrorIPs_mem_char (df : List AccessRecord)
    (h : ((ipStats df).filter statQual).length ≤ 10) (ip : String) :
    (∃ s ∈ highErrorIPs df, s.ip = ip) ↔
      (ip ∈ df.map (fun r => r.ip) ∧
        (1 : ℚ) / 2 < (errCount df ip : ℚ) / (totalPresent df ip : ℚ) ∧
        10 < totalPresent df ip) := by
  have hperm := List.perm_insertionSort rateGE ((ipStats df).filter statQual)
  have hlen : (((ipStats df).filter statQual).insertionSort rateGE).length ≤ 10 := by
    rw [hperm.length_eq]
    exact h
  have htake : highErrorIPs df = ((ipStats df).filter statQual).insertionSort rateGE := by
    simp only [highErrorIPs]
    exact List.take_of_length_le hlen
  have hmemHE : ∀ s, s ∈ highErrorIPs df ↔ (s ∈ ipStats df ∧ statQual s = true) := by
    intro s
    rw [htake, hperm.mem_iff, List.mem_filter]
  have hmemStats : ∀ s, s ∈ ipStats df ↔
      ∃ ip', ip' ∈ df.map (fun r => r.ip) ∧ s = mkStat df ip' := by
    intro s
    simp only [ipStats, List.mem_map, List.mem_dedup]
    constructor
    · rintro ⟨ip', hip', rfl⟩
      exact ⟨ip', hip', rfl⟩
    · rintro ⟨ip', hip', rfl⟩
      exact ⟨ip', hip', rfl⟩
  constructor
  · rintro ⟨s, hs, rfl⟩
    rcases (hmemHE s).mp hs with ⟨hstats, hq⟩
    rcases (hmemStats s).mp hstats with ⟨ip', hip', rfl⟩
    simp only [statQual, mkStat, Bool.and_eq_true, decide_eq_true_eq] at hq
    simp only [mkStat]
    exact ⟨hip', hq.1, hq.2⟩
  · rintro ⟨hip, hrate, htot⟩
    refine ⟨mkStat df ip, ?_, rfl⟩
    rw [hmemHE]
    refine ⟨(hmemStats _).mpr ⟨ip, hip, rfl⟩, ?_⟩
    simp only [statQual, mkStat, Bool.and_eq_true, decide_eq_true_eq]
    exact ⟨hrate, htot⟩

theorem ipStats_filter_card_le (df : List AccessRecord) :
    ((ipStats df).filter statQual).length ≤ ((df.map (fun r => r.ip)).dedup).length := by
  calc ((ipStats df).filter statQual).length ≤ (ipStats df).length :=
        List.length_filter_le _ _
    _ = ((df.map (fun r => r.ip)).dedup).length := by
        simp [ipStats]

/-- C2 counterexample: total_requests is the count of rows with a
non-null status, not of all rows of the IP.  On c2dfA the IP 1.2.3.4 has
24 rows, 12 of them errors — an all-rows error rate of exactly 1/2, not
above it — yet the report lists it, because 12 of its 12 parsed statuses
are errors. -/
theorem c2_total_requests_cex :
    (∃ s ∈ highErrorIPs c2dfA, s.ip = "1.2.3.4")
  ∧ (c2dfA.countP (fun r => r.ip == "1.2.3.4") = 24)
  ∧ (c2dfA.countP (fun r => r.ip == "1.2.3.4" && statusErrB r.status) = 12)
  ∧ ¬((1 : ℚ) / 2 < (12 : ℚ) / 24) := by
  have hlen : ((ipStats c2dfA).filter statQual).length ≤ 10 := by
    refine le_trans (ipStats_filter_card_le c2dfA) ?_
    decide
  have hec : errCount c2dfA "1.2.3.4" = 12 := by decide
  have htc : totalPresent c2dfA "1.2.3.4" = 12 := by decide
  refine ⟨?_, by decide, by decide, by norm_num⟩
  refine (highErrorIPs_mem_char c2dfA hlen "1.2.3.4").mpr ⟨by decide, ?_, ?_⟩
  · rw [hec, htc]
    norm_num
  · rw [htc]
    norm_num

/-- C2 amended: the high-error-IP report groups rows by ip, counts
total_requests as the rows of the IP whose status is present (pandas
'count' skips nulls) and error_requests as those with status ≥ 400, uses
error_rate = error_requests / total_requests, and reports exactly the
IPs with error_rate > 1/2 and total_requests > 10 (stated here when at
most 10 IPs qualify, so the head(10) cap drops nothing), sorted
descending by error_rate and capped at 10 entries, each entry carrying
exactly those statistics. -/
theorem c2_high_error_ips (df : List AccessRecord)
    (h : ((ipStats df).filter statQual).length ≤ 10) :
    (∀ ip : String,
      (∃ s ∈ highErrorIPs df, s.ip = ip) ↔
        (ip ∈ df.map (fun r => r.ip) ∧
          (1 : ℚ) / 2 < (errCount df ip : ℚ) / (totalPresent df ip : ℚ) ∧
          10 < totalPresent df ip))
  ∧ List.Sorted rateGE (highErrorIPs df)
  ∧ (highErrorIPs df).length ≤ 10
  ∧ (∀ s ∈ highErrorIPs df,
      s.total_requests = totalPresent df s.ip ∧
      s.error_requests = errCount df s.ip ∧
      s.error_rate = (errCount df s.ip : ℚ) / (totalPresent df s.ip : ℚ)) := by
  have hperm := List.perm_insertionSort rateGE ((ipStats df).filter statQual)
  have hlen : (((ipStats df).filter statQual).insertionSort rateGE).length ≤ 10 := by
    rw [hperm.length_eq]
    exact h
  have htake : highErrorIPs df = ((ipStats df).filter statQual).insertionSort rateGE := by
    simp only [highErrorIPs]
    exact List.take_of_length_le hlen
  refine ⟨highErrorIPs_mem_char df h, ?_, ?_, ?_⟩
  · have hs := List.sorted_insertionSort rateGE ((ipStats df).filter statQual)
    simp only [highErrorIPs]
    exact hs.sublist (List.take_sublist 10 _)
  · simp only [highErrorIPs]
    exact List.length_take_le 10 _
  · intro s hs
    rw [htake, hperm.mem_iff, List.mem_filter] at hs
    have hstats := hs.1
    simp only [ipStats, List.mem_map, List.mem_dedup] at hstats
    rcases hstats with ⟨ip, _, rfl⟩
    exact ⟨rfl, rfl, rfl⟩

/-- C2 witness: the amended report applied to the concrete frame c2dfW,
whose single IP 7.7.7.7 qualifies (12 parsed statuses, all ≥ 400). -/
theorem c2_high_error_ips_witness :
    ((ipStats c2dfW).filter statQual).length ≤ 10 ∧
    (∃ s ∈ highErrorIPs c2dfW, s.ip = "7.7.7.7") := by
  have hlen : ((ipStats c2dfW).filter statQual).length ≤ 10 := by
    refine le_trans (ipStats_filter_card_le c2dfW) ?_
    decide
  have hec : errCount c2dfW "7.7.7.7" = 12 := by decide
  have htc : totalPresent c2dfW "7.7.7.7" = 12 := by decide
  refine ⟨hlen, ?_⟩
  refine ((c2_high_error_ips c2dfW hlen).1 "7.7.7.7").mpr ⟨by decide, ?_, ?_⟩
  · rw [hec, htc]
    norm_num
  · rw [htc]
    norm_num

/-- C6 witness: the boundary example instantiated — the reported group of
9.9.9.9 satisfies the exact characterization, and is not 8.8.8.8. -/
theorem c6_brute_force_exact_witness :
    ((("9.9.9.9", "/wp-login.php"), 6) : (String × String) × Nat).1.1 ≠ "8.8.8.8" ∧
    (5 < 6 ∧
      6 = (c6df.filter
            (fun r => bruteMatch r && r.ip == "9.9.9.9" &&
              r.path == some "/wp-login.php")).length) :=
  ⟨c6_brute_force_exact.2.2 _ c6_brute_force_exact.2.1,
   (c6_brute_force_exact.1 c6df "9.9.9.9" "/wp-login.php" 6).mp c6_brute_force_exact.2.1⟩
